import Mathlib

/-!
Shallow embedding of `src/Task_tracker.py` (a Streamlit + SQLAlchemy task
tracker).  Dates are modelled as proleptic-Gregorian ordinals (`Nat`, with
0001-01-01 = 1), matching Python's `date.toordinal()`; `date.max` is the
ordinal of 9999-12-31.  The database is modelled as a list of rows for each
table plus an auto-increment counter; the Streamlit session state that the
claims observe (the `todos_data` cache and the `currently_editing__*` flags)
is modelled explicitly.  A callback that raises a Python exception
(`KeyError` on a missing `st.session_state` key, `AttributeError` on a
method call on `None`) is modelled as returning `CbResult.err` carrying the
state at the moment of the raise; a normal return is `CbResult.ok`.  The
`writes` field of `AppState` is instrumentation only: it counts the DML
statements (`INSERT`/`UPDATE`/`DELETE`) executed so far.
-/

namespace TaskTracker

/-- Python `datetime.date`, as a proleptic Gregorian ordinal (0001-01-01 = 1). -/
abbrev Date := Nat

/-- `datetime.date.max`, i.e. 9999-12-31, as an ordinal
(`date.max.toordinal() == 3652059`).  Used as the sort sentinel for missing
dates in `filtered_todos.sort(key=lambda x: getattr(x, sort_by) or date.max)`. -/
def dateMax : Date := 3652059

/-- A row of the `todo` table (schema from `connect_table`): columns
`id` (integer primary key), `title`, and the nullable columns
`description`, `label`, `priority`, `status`, `requester`, `created_at`,
`due_at`.  The `done` column is nullable in the schema, but every write the
application performs stores a Boolean, so rows are modelled with `done : Bool`. -/
structure TodoRow where
  id : Nat
  title : String
  description : Option String := none
  label : Option String := none
  priority : Option String := none
  status : Option String := none
  requester : Option String := none
  created_at : Option Date := none
  due_at : Option Date := none
  done : Bool := false
deriving Repr, DecidableEq

/-- The `Todo` dataclass of the source. -/
structure Todo where
  id : Option Nat := none
  title : String := ""
  description : Option String := none
  label : Option String := none
  requester : Option String := none
  priority : Option String := some "medium"
  status : Option String := some "to-do"
  created_at : Option Date := none
  due_at : Option Date := none
  done : Bool := false
deriving Repr, DecidableEq

/-- `Todo.from_row` on a present row (`cls(**row._mapping)`); the `None`-row
branch is handled by the `Option.map` at the call sites. -/
def Todo.from_row (r : TodoRow) : Todo :=
  { id := some r.id, title := r.title, description := r.description,
    label := r.label, requester := r.requester, priority := r.priority,
    status := r.status, created_at := r.created_at, due_at := r.due_at,
    done := r.done }

/-- A row of the `subtasks` table: `id` (integer primary key), `todo_id`
(unconstrained reference to `todo.id`), `title`, `done`. -/
structure SubtaskRow where
  id : Nat
  todo_id : Nat
  title : String
  done : Bool := false
deriving Repr, DecidableEq

/-- The `Subtask` dataclass of the source. -/
structure Subtask where
  id : Option Nat := none
  todo_id : Nat
  title : String := ""
  done : Bool := false
deriving Repr, DecidableEq

/-- `Subtask.from_row` on a present row. -/
def Subtask.from_row (r : SubtaskRow) : Subtask :=
  { id := some r.id, todo_id := r.todo_id, title := r.title, done := r.done }

/-- The relational store: the two tables plus the auto-increment counter for
`todo.id` (the store assigns `nextTodoId` to the next inserted Task row). -/
structure DB where
  todos : List TodoRow := []
  subtasks : List SubtaskRow := []
  nextTodoId : Nat := 1
deriving Repr, DecidableEq

/-- Python `dict` lookup `m[k]`, as `none` when the key is absent. -/
def dictGet (m : List (Nat × α)) (k : Nat) : Option α :=
  (m.find? (fun p => p.1 == k)).map (fun p => p.2)

/-- Python `dict` assignment `m[k] = v`: overwrite in place when the key
exists, otherwise append (insertion order preserved). -/
def dictSet (m : List (Nat × α)) (k : Nat) (v : α) : List (Nat × α) :=
  if m.any (fun p => p.1 == k) then
    m.map (fun p => if p.1 == k then (k, v) else p)
  else
    m ++ [(k, v)]

/-- Insert `a` into `l` before the first element `b` with `le a b`; the
stable insertion step of `sortBy`. -/
def insertSorted (le : α → α → Bool) (a : α) : List α → List α
  | [] => [a]
  | b :: bs => if le a b then a :: b :: bs else b :: insertSorted le a bs

/-- Stable insertion sort with respect to the comparison `le` (the model of
Python's stable `list.sort` / SQL `ORDER BY`). -/
def sortBy (le : α → α → Bool) : List α → List α
  | [] => []
  | a :: as => insertSorted le a (sortBy le as)

/-- `ORDER BY id` on the `todo` table. -/
def sortById (l : List TodoRow) : List TodoRow :=
  sortBy (fun a b => decide (a.id ≤ b.id)) l

/-- `load_all_todos`: `SELECT * FROM todo ORDER BY id`, then
`{todo.id: todo for todo in todos if todo}`.  The dict is modelled as an
association list in insertion (= ascending id) order; values are wrapped in
`some` because the same session-state slot later also stores `load_todo`
results, which may be `None`. -/
def load_all_todos (db : DB) : List (Nat × Option Todo) :=
  (sortById db.todos).map (fun r => (r.id, some (Todo.from_row r)))

/-- `load_todo`: `SELECT * FROM todo WHERE id = todo_id`, `.first()`,
`Todo.from_row` (which returns `None` on a missing row). -/
def load_todo (db : DB) (todo_id : Nat) : Option Todo :=
  (db.todos.find? (fun r => r.id == todo_id)).map Todo.from_row

/-- `load_subtasks`: `SELECT * FROM subtasks WHERE todo_id = todo_id`,
`.fetchall()`, mapped through `Subtask.from_row`. -/
def load_subtasks (db : DB) (todo_id : Nat) : List Subtask :=
  (db.subtasks.filter (fun r => r.todo_id == todo_id)).map Subtask.from_row

/-- The session state the claims observe: the store, the
`st.session_state["todos_data"]` cache (`Dict[int, Todo]`, where entries
written by `load_todo` may be `None`), the `currently_editing__{id}` flags,
and the instrumentation counter `writes` (number of DML statements executed —
not program state). -/
structure AppState where
  db : DB
  todos_data : List (Nat × Option Todo) := []
  editing : List (Nat × Bool) := []
  writes : Nat := 0
deriving Repr, DecidableEq

/-- Outcome of running a callback: `ok` for a normal return, `err` for an
escaped Python exception; both carry the session state at that moment. -/
inductive CbResult where
  | ok : AppState → CbResult
  | err : AppState → CbResult
deriving Repr, DecidableEq

/-- The state carried by a callback outcome. -/
def CbResult.state : CbResult → AppState
  | .ok s => s
  | .err s => s

/-- The widget values of the `new_todo_form` (all its widgets exist whenever
the form is submitted, and none of them can produce `None`: text widgets
yield strings, the selectboxes always have a selection, and the date input
defaults to today). -/
structure NewTodoForm where
  title : String
  description : String := ""
  requester : String := ""
  label : String := "work"
  priority : String := "medium"
  status : String := "to-do"
  due_date : Date := 1
deriving Repr, DecidableEq

/-- The `edit_todo_form_{id}__*` slice of `st.session_state`: each field is
`none` when the key is absent (reading an absent key raises `KeyError`). -/
structure EditForm where
  title? : Option String := none
  description? : Option String := none
  status? : Option String := none
  requester? : Option String := none
  due_date? : Option Date := none
deriving Repr, DecidableEq

/-- The session-state keys created by rendering `todo_edit_widget` and
submitting it: only `__title`, `__description` and `__due_date` widgets
exist in the edit form, so only those keys are present. -/
def todo_edit_widget_form (title description : String) (due_date : Date) : EditForm :=
  { title? := some title, description? := some description,
    due_date? := some due_date }

/-- `create_todo_callback`: abort on empty title (`if not ...title`);
otherwise `INSERT` the new row (with `created_at = date.today()`,
`done = False` and the store-assigned id) and refresh the whole cache with
`load_all_todos`.  The ambient clock `date.today()` is the explicit
argument `today`. -/
def create_todo_callback (today : Date) (s : AppState) (f : NewTodoForm) : CbResult :=
  if f.title = "" then
    .ok s
  else
    let row : TodoRow :=
      { id := s.db.nextTodoId, title := f.title,
        description := some f.description, requester := some f.requester,
        label := some f.label, priority := some f.priority,
        status := some f.status, created_at := some today,
        due_at := some f.due_date, done := false }
    let db' : DB := { s.db with
      todos := s.db.todos ++ [row],
      nextTodoId := s.db.nextTodoId + 1 }
    .ok { s with
      db := db',
      todos_data := load_all_todos db',
      writes := s.writes + 1 }

/-- `update_todo_callback`: read the five `edit_todo_form_{id}__*` keys (a
missing key raises `KeyError` before anything is written); abort on empty
title, keeping the editing flag set; otherwise
`UPDATE todo SET title, description, status, requester, due_at WHERE id = todo_id`,
refresh the cache entry from `load_todo`, and clear the editing flag. -/
def update_todo_callback (s : AppState) (todo_id : Nat) (f : EditForm) : CbResult :=
  match f.title?, f.description?, f.status?, f.requester?, f.due_date? with
  | some title, some description, some status, some requester, some due =>
    if title = "" then
      .ok { s with editing := dictSet s.editing todo_id true }
    else
      let db' : DB := { s.db with
        todos := s.db.todos.map (fun r =>
          if r.id == todo_id then
            { r with
              title := title,
              description := some description,
              status := some status,
              requester := some requester,
              due_at := some due }
          else r) }
      .ok { s with
        db := db',
        todos_data := dictSet s.todos_data todo_id (load_todo db' todo_id),
        editing := dictSet s.editing todo_id false,
        writes := s.writes + 1 }
  | _, _, _, _, _ => .err s

/-- `delete_todo_callback`: `DELETE FROM todo WHERE id = todo_id`, refresh
the whole cache with `load_all_todos`, clear the editing flag. -/
def delete_todo_callback (s : AppState) (todo_id : Nat) : CbResult :=
  let db' : DB := { s.db with
    todos := s.db.todos.filter (fun r => !(r.id == todo_id)) }
  .ok { s with
    db := db',
    todos_data := load_all_todos db',
    editing := dictSet s.editing todo_id false,
    writes := s.writes + 1 }

/-- `mark_done_callback`: read the current done flag from the cache
(`st.session_state["todos_data"][todo_id].done` — `KeyError` on a missing
key, `AttributeError` when the entry is `None`), write its negation with one
`UPDATE`, and refresh the cache entry from `load_todo`. -/
def mark_done_callback (s : AppState) (todo_id : Nat) : CbResult :=
  match dictGet s.todos_data todo_id with
  | none => .err s
  | some none => .err s
  | some (some todo) =>
    let db' : DB := { s.db with
      todos := s.db.todos.map (fun r =>
        if r.id == todo_id then { r with done := !todo.done } else r) }
    .ok { s with
      db := db',
      todos_data := dictSet s.todos_data todo_id (load_todo db' todo_id),
      writes := s.writes + 1 }

/-- The sidebar filter selections and the hide-done checkbox. -/
structure FilterState where
  filter_label : List String := ["work", "school", "personal", "others"]
  filter_priority : List String := ["low", "medium", "high"]
  filter_status : List String := ["to-do", "in progress", "completed", "blocked"]
  hide_done : Bool := false
deriving Repr, DecidableEq

/-- Python `x in l` for an `Optional[str]` against a list of strings:
`None in l` is `False` for a list of strings. -/
def optMemStr (o : Option String) (l : List String) : Bool :=
  match o with
  | some a => l.contains a
  | none => false

/-- The `filtered_todos` list comprehension: keep the tasks whose label,
priority and status are members of the respective selections and which are
not done when `hide_done` is set. -/
def apply_filters (todos : List Todo) (fs : FilterState) : List Todo :=
  todos.filter (fun t =>
    optMemStr t.label fs.filter_label &&
    optMemStr t.priority fs.filter_priority &&
    optMemStr t.status fs.filter_status &&
    (!fs.hide_done || !t.done))

/-- The `sort_by` selectbox: `"due_at"` or `"created_at"`. -/
inductive SortField where
  | due_at
  | created_at
deriving Repr, DecidableEq

/-- The sort key `getattr(x, sort_by) or date.max`: the field's date, with
`date.max` substituted when it is `None`. -/
def sort_key (f : SortField) (t : Todo) : Date :=
  (match f with
   | .due_at => t.due_at
   | .created_at => t.created_at).getD dateMax

/-- `filtered_todos.sort(key=..., reverse=...)`: Python's stable sort on the
key, with `reverse=True` comparing flipped keys (equal keys keep their
original relative order either way). -/
def sort_todos (f : SortField) (reverse : Bool) (l : List Todo) : List Todo :=
  if reverse then
    sortBy (fun a b => decide (sort_key f b ≤ sort_key f a)) l
  else
    sortBy (fun a b => decide (sort_key f a ≤ sort_key f b)) l

/-- "Every task with no due date is placed after all tasks that have a due
date" for an output list: any index holding a task without a due date is
greater than any index holding a task with one. -/
def noDueLast (l : List Todo) : Prop :=
  ∀ i j : Fin l.length, (l.get i).due_at = none → (l.get j).due_at ≠ none →
    (j : Nat) < (i : Nat)

/-- "Every task with no due date is placed before all tasks that have a due
date" for an output list. -/
def noDueFirst (l : List Todo) : Prop :=
  ∀ i j : Fin l.length, (l.get i).due_at = none → (l.get j).due_at ≠ none →
    (i : Nat) < (j : Nat)

/-- Convert a proleptic Gregorian ordinal (0001-01-01 = 1) to
`(year, month, day)`; the arithmetic of `date.fromordinal`. -/
def civilFromOrdinal (o : Nat) : Nat × Nat × Nat :=
  let z := o + 305
  let era := z / 146097
  let doe := z % 146097
  let yoe := (doe - doe / 1460 + doe / 36524 - doe / 146096) / 365
  let y := yoe + era * 400
  let doy := doe - (365 * yoe + yoe / 4 - yoe / 100)
  let mp := (5 * doy + 2) / 153
  let d := doy - (153 * mp + 2) / 5 + 1
  let m := if mp < 10 then mp + 3 else mp - 9
  (if m ≤ 2 then y + 1 else y, m, d)

/-- Decimal rendering of `n` left-padded with zeros to width `w`. -/
def padNum (w n : Nat) : String :=
  let s := toString n
  String.mk (List.replicate (w - s.length) '0') ++ s

/-- `strftime("%Y-%m-%d")`. -/
def strftimeYmd (d : Date) : String :=
  let c := civilFromOrdinal d
  padNum 4 c.1 ++ "-" ++ padNum 2 c.2.1 ++ "-" ++ padNum 2 c.2.2

/-- `strftime("%Y%m%dT090000Z")` (the event-start timestamp of the link). -/
def strftimeGcalStart (d : Date) : String :=
  let c := civilFromOrdinal d
  padNum 4 c.1 ++ padNum 2 c.2.1 ++ padNum 2 c.2.2 ++ "T090000Z"

/-- `strftime("%Y%m%dT100000Z")` (the event-end timestamp of the link). -/
def strftimeGcalEnd (d : Date) : String :=
  let c := civilFromOrdinal d
  padNum 4 c.1 ++ padNum 2 c.2.1 ++ padNum 2 c.2.2 ++ "T100000Z"

/-- Python `x or dflt` for an `Optional[str] x`: `None` and `""` are falsy. -/
def orStr (o : Option String) (dflt : String) : String :=
  match o with
  | some a => if a == "" then dflt else a
  | none => dflt

/-- Python truthiness of an `Optional[str]`. -/
def strTruthy (o : Option String) : Bool :=
  match o with
  | some a => !(a == "")
  | none => false

/-- One character step of Python `str.title()`: a letter following a
non-letter is uppercased, a letter following a letter is lowercased. -/
def pyTitleGo : Bool → List Char → List Char
  | _, [] => []
  | prevAlpha, c :: cs =>
    let c' := if c.isAlpha then (if prevAlpha then c.toLower else c.toUpper) else c
    c' :: pyTitleGo c.isAlpha cs

/-- Python `str.title()`. -/
def pyTitle (s : String) : String :=
  String.mk (pyTitleGo false s.data)

/-- An uppercase hexadecimal digit. -/
def hexDigit (n : Nat) : Char :=
  if n < 10 then Char.ofNat (48 + n) else Char.ofNat (55 + n)

/-- `urllib.parse.quote_plus` on one UTF-8 byte: alphanumerics and
`_` `.` `-` `~` kept, space becomes `+`, everything else percent-encoded. -/
def quoteByte (b : UInt8) : String :=
  let n := b.toNat
  if (48 ≤ n ∧ n ≤ 57) ∨ (65 ≤ n ∧ n ≤ 90) ∨ (97 ≤ n ∧ n ≤ 122) ∨
     n = 95 ∨ n = 46 ∨ n = 45 ∨ n = 126 then
    String.singleton (Char.ofNat n)
  else if n = 32 then "+"
  else "%" ++ String.singleton (hexDigit (n / 16)) ++ String.singleton (hexDigit (n % 16))

/-- `urllib.parse.quote_plus` on a string. -/
def quotePlus (s : String) : String :=
  String.join (s.toUTF8.toList.map quoteByte)

/-- `urllib.parse.urlencode`: `quote_plus` each key and value, join the
pairs as `k=v` with `&`. -/
def urlencode (params : List (String × String)) : String :=
  String.intercalate "&" (params.map (fun p => quotePlus p.1 ++ "=" ++ quotePlus p.2))

/-- `generate_gcal_link(title, description, due_date)`: calls
`due_date.strftime(...)` without a guard, so a missing due date raises
`AttributeError` (modelled as `none`); otherwise builds the calendar URL. -/
def generate_gcal_link (title : String) (description : Option String)
    (due_date : Option Date) : Option String :=
  match due_date with
  | none => none
  | some d =>
    let start := strftimeGcalStart d
    let stop := strftimeGcalEnd d
    let params := [("action", "TEMPLATE"), ("text", title),
                   ("details", orStr description "No description provided."),
                   ("dates", start ++ "/" ++ stop)]
    some ("https://calendar.google.com/calendar/render" ++ "?" ++ urlencode params)

/-- The texts `todo_card` renders for one task. -/
structure CardView where
  display_title : String
  meta_text : String
  display_description : String
  display_requester : String
  display_due_date : String
  calendar_link : String
deriving Repr, DecidableEq

/-- The rendering of one task card by `todo_card`, up to the calendar link:
title (struck through when done), meta line (label/priority/status, each
title-cased when truthy), description and requester with fallbacks, the due
caption `f"Due {todo_item.due_at.strftime('%Y-%m-%d')}"` — which calls
`strftime` on the unguarded optional due date — and the calendar link.
`none` models the card raising before it finishes rendering. -/
def todo_card_view (t : Todo) : Option CardView :=
  let display_title := if t.done then "~~" ++ t.title ++ "~~" else t.title
  let meta_items :=
    (if strTruthy t.label then ["🏷️ <strong>" ++ pyTitle (t.label.getD "") ++ "</strong>"] else []) ++
    (if strTruthy t.priority then ["🔵 <strong>" ++ pyTitle (t.priority.getD "") ++ "</strong>"] else []) ++
    (if strTruthy t.status then ["📌 <strong>" ++ pyTitle (t.status.getD "") ++ "</strong>"] else [])
  let meta_text := String.intercalate " &nbsp;|&nbsp; " meta_items
  let d0 := orStr t.description ":grey[*No description*]"
  let display_description := if t.done then "~~" ++ d0 ++ "~~" else d0
  let display_requester := orStr t.requester ":grey[*No requester*]"
  match t.due_at with
  | none => none
  | some d =>
    let dd := "Due " ++ strftimeYmd d
    let display_due_date := if t.done then "~~" ++ dd ++ "~~" else dd
    (generate_gcal_link t.title t.description t.due_at).map (fun link =>
      { display_title := display_title, meta_text := meta_text,
        display_description := display_description,
        display_requester := display_requester,
        display_due_date := display_due_date, calendar_link := link })

/-- Well-formedness of the store: the `todo` rows are in strictly ascending
id order (so ids are unique and `ORDER BY id` is the identity) and every id
is below the auto-increment counter. -/
def WF (db : DB) : Prop :=
  db.todos.Pairwise (fun a b => a.id < b.id) ∧
  ∀ r ∈ db.todos, r.id < db.nextTodoId

/-! Concrete fixtures used by the witness theorems.  Ordinal 738672 is
2023-06-01; all fixture dates are ordinary dates well below `date.max`. -/

/-- A concrete stored task row. -/
def sampleRow : TodoRow :=
  { id := 1, title := "Write report", description := some "Quarterly numbers",
    label := some "work", priority := some "high", status := some "to-do",
    requester := some "Alice", created_at := some 738672,
    due_at := some 738677, done := false }

/-- A concrete store holding one task and one subtask of it. -/
def sampleDB : DB :=
  { todos := [sampleRow],
    subtasks := [{ id := 1, todo_id := 1, title := "Collect data", done := false }],
    nextTodoId := 2 }

/-- A concrete session whose cache has just been loaded from `sampleDB`. -/
def sampleState : AppState :=
  { db := sampleDB, todos_data := load_all_todos sampleDB, editing := [], writes := 0 }

/-- A concrete submitted new-todo form with a non-empty title. -/
def sampleNewForm : NewTodoForm :=
  { title := "Review budget", description := "check totals", requester := "Bob",
    label := "school", priority := "low", status := "in progress", due_date := 738700 }

/-- The same new-todo form submitted with an empty title. -/
def emptyTitleNewForm : NewTodoForm :=
  { sampleNewForm with title := "" }

/-- A fully populated edit-form state (all five keys present). -/
def sampleEditForm : EditForm :=
  { title? := some "Write report v2", description? := some "new numbers",
    status? := some "in progress", requester? := some "Alice",
    due_date? := some 738800 }

/-- The fully populated edit-form state with an empty title. -/
def emptyTitleEditForm : EditForm :=
  { sampleEditForm with title? := some "" }

/-- A task with no due date. -/
def todoNoDue : Todo :=
  { id := some 10, title := "no due", label := some "work",
    priority := some "medium", status := some "to-do", due_at := none }

/-- A task whose due date is exactly `date.max`, the sentinel the sort
substitutes for missing dates. -/
def todoDueMax : Todo :=
  { id := some 11, title := "due max", label := some "work",
    priority := some "medium", status := some "to-do", due_at := some dateMax }

/-- A task whose label is absent (`None`). -/
def todoNoLabel : Todo :=
  { id := some 12, title := "unlabeled", label := none,
    priority := some "medium", status := some "to-do", due_at := some 738700 }

/-! Helper lemmas about the dictionary and sorting primitives. -/

theorem find?_set_hit (m : List (Nat × α)) (k : Nat) (v : α)
    (h : m.any (fun p => p.1 == k) = true) :
    (m.map (fun p => if p.1 == k then (k, v) else p)).find? (fun p => p.1 == k)
      = some (k, v) := by
  induction m with
  | nil => simp at h
  | cons a m ih =>
    rw [List.map_cons]
    by_cases ha : (a.1 == k) = true
    · rw [if_pos ha]
      exact List.find?_cons_of_pos _ (by simp)
    · rw [if_neg ha]
      have hstep : (a :: (m.map (fun p => if p.1 == k then (k, v) else p))).find?
            (fun p => p.1 == k)
          = (m.map (fun p => if p.1 == k then (k, v) else p)).find?
            (fun p => p.1 == k) :=
        List.find?_cons_of_neg _ ha
      rw [hstep]
      have hm : m.any (fun p => p.1 == k) = true := by
        rw [List.any_cons] at h
        rcases Bool.or_eq_true_iff.mp h with h' | h'
        · exact absurd h' ha
        · exact h'
      exact ih hm

theorem find?_append_hit (m : List (Nat × α)) (k : Nat) (v : α)
    (h : m.any (fun p => p.1 == k) = false) :
    (m ++ [(k, v)]).find? (fun p => p.1 == k) = some (k, v) := by
  induction m with
  | nil => exact List.find?_cons_of_pos _ (by simp)
  | cons a m ih =>
    rw [List.any_cons] at h
    rcases Bool.or_eq_false_iff.mp h with ⟨ha, hm⟩
    rw [List.cons_append]
    have hstep : (a :: (m ++ [(k, v)])).find? (fun p => p.1 == k)
        = (m ++ [(k, v)]).find? (fun p => p.1 == k) :=
      List.find?_cons_of_neg _ (by simp [ha])
    rw [hstep]
    exact ih hm

/-- Writing key `k` and reading it back yields the written value. -/
theorem dictGet_dictSet_self (m : List (Nat × α)) (k : Nat) (v : α) :
    dictGet (dictSet m k v) k = some v := by
  unfold dictGet dictSet
  by_cases h : m.any (fun p => p.1 == k) = true
  · rw [if_pos h, find?_set_hit m k v h]
    rfl
  · rw [if_neg h, find?_append_hit m k v (Bool.not_eq_true _ ▸ h)]
    rfl

theorem insertSorted_length (le : α → α → Bool) (a : α) (l : List α) :
    (insertSorted le a l).length = l.length + 1 := by
  induction l with
  | nil => rfl
  | cons b bs ih =>
    by_cases h : le a b <;> simp [insertSorted, h, ih]

theorem sortBy_length (le : α → α → Bool) (l : List α) :
    (sortBy le l).length = l.length := by
  induction l with
  | nil => rfl
  | cons a as ih => simp [sortBy, insertSorted_length, ih]

theorem insertSorted_perm (le : α → α → Bool) (a : α) (l : List α) :
    List.Perm (insertSorted le a l) (a :: l) := by
  induction l with
  | nil => exact List.Perm.refl _
  | cons b bs ih =>
    by_cases h : le a b
    · simp [insertSorted, h]
    · simp only [insertSorted, h, if_neg]
      exact ((ih.cons b).trans (List.Perm.swap a b bs))

theorem sortBy_perm (le : α → α → Bool) (l : List α) :
    List.Perm (sortBy le l) l := by
  induction l with
  | nil => exact List.Perm.refl _
  | cons a as ih => exact (insertSorted_perm le a (sortBy le as)).trans (ih.cons a)

theorem mem_sortBy (le : α → α → Bool) (l : List α) (x : α) :
    x ∈ sortBy le l ↔ x ∈ l :=
  (sortBy_perm le l).mem_iff

theorem mem_insertSorted (le : α → α → Bool) (a : α) (l : List α) (x : α) :
    x ∈ insertSorted le a l ↔ x = a ∨ x ∈ l := by
  rw [(insertSorted_perm le a l).mem_iff, List.mem_cons]

theorem insertSorted_pairwise (le : α → α → Bool)
    (htot : ∀ a b, le a b = true ∨ le b a = true)
    (htrans : ∀ a b c, le a b = true → le b c = true → le a c = true)
    (a : α) (l : List α) (h : l.Pairwise (fun x y => le x y = true)) :
    (insertSorted le a l).Pairwise (fun x y => le x y = true) := by
  induction l with
  | nil => simp [insertSorted]
  | cons b bs ih =>
    rcases List.pairwise_cons.mp h with ⟨hb, hbs⟩
    by_cases hab : le a b
    · simp only [insertSorted, hab, if_pos]
      refine List.pairwise_cons.mpr ⟨?_, h⟩
      intro x hx
      rcases List.mem_cons.mp hx with rfl | hx
      · exact hab
      · exact htrans a b x hab (hb x hx)
    · simp only [insertSorted, hab, if_neg, Bool.not_eq_true]
      refine List.pairwise_cons.mpr ⟨?_, ih hbs⟩
      intro x hx
      rcases (mem_insertSorted le a bs x).mp hx with rfl | hx
      · rcases htot x b with hxb | hbx
        · exact absurd hxb (by simpa using hab)
        · exact hbx
      · exact hb x hx

theorem sortBy_pairwise (le : α → α → Bool)
    (htot : ∀ a b, le a b = true ∨ le b a = true)
    (htrans : ∀ a b c, le a b = true → le b c = true → le a c = true)
    (l : List α) :
    (sortBy le l).Pairwise (fun x y => le x y = true) := by
  induction l with
  | nil => simp [sortBy]
  | cons a as ih => exact insertSorted_pairwise le htot htrans a (sortBy le as) ih

/-- A stable sort leaves an already-sorted list unchanged. -/
theorem sortBy_eq_self (le : α → α → Bool) (l : List α)
    (h : l.Pairwise (fun x y => le x y = true)) :
    sortBy le l = l := by
  induction l with
  | nil => rfl
  | cons a as ih =>
    rcases List.pairwise_cons.mp h with ⟨ha, has⟩
    rw [sortBy, ih has]
    cases as with
    | nil => rfl
    | cons b bs => simp [insertSorted, ha b (List.mem_cons_self b bs)]

/-- On a store whose rows are already in ascending id order, `ORDER BY id`
is the identity, so `load_all_todos` is a plain map over the rows. -/
theorem load_all_todos_eq (db : DB)
    (h : db.todos.Pairwise (fun a b => a.id < b.id)) :
    load_all_todos db = db.todos.map (fun r => (r.id, some (Todo.from_row r))) := by
  unfold load_all_todos sortById
  rw [sortBy_eq_self]
  exact h.imp (fun hab => by simpa using Nat.le_of_lt hab)

/-- Reading the cache produced by `load_all_todos` is a row lookup. -/
theorem dictGet_load_all (db : DB)
    (h : db.todos.Pairwise (fun a b => a.id < b.id)) (k : Nat) :
    dictGet (load_all_todos db) k
      = (db.todos.find? (fun r => r.id == k)).map (fun r => some (Todo.from_row r)) := by
  rw [load_all_todos_eq db h]
  unfold dictGet
  rw [List.find?_map]
  rw [Option.map_map]
  rfl

theorem find?_filter_ne (l : List TodoRow) (i k : Nat) (hk : k ≠ i) :
    (l.filter (fun r => !(r.id == i))).find? (fun r => r.id == k)
      = l.find? (fun r => r.id == k) := by
  induction l with
  | nil => rfl
  | cons a l ih =>
    by_cases ha : a.id == k
    · have hne : (a.id == i) = false := by
        have : a.id = k := by simpa using ha
        simp [this, hk]
      simp [List.find?, List.filter, hne, ha]
    · by_cases hai : a.id == i
      · simp [List.find?, List.filter, hai, ha, ih]
      · simp [List.find?, List.filter, hai, ha, ih]

/-- `find?` by id commutes with an id-preserving rewrite of the matching
rows (the shape of an `UPDATE ... WHERE id = k`). -/
theorem find?_map_update (l : List TodoRow) (k : Nat) (u : TodoRow → TodoRow)
    (hu : ∀ r, (u r).id = r.id) :
    (l.map (fun r => if r.id == k then u r else r)).find? (fun r => r.id == k)
      = (l.find? (fun r => r.id == k)).map (fun r => if r.id == k then u r else r) := by
  rw [List.find?_map]
  have hp : ((fun r : TodoRow => r.id == k) ∘ fun r => if r.id == k then u r else r)
      = fun r : TodoRow => r.id == k := by
    funext r
    by_cases h : (r.id == k) = true <;> simp [Function.comp, h, hu]
  rw [hp]

/-- The cache built by `load_all_todos` has one entry per stored row. -/
theorem load_all_todos_length (db : DB) :
    (load_all_todos db).length = db.todos.length := by
  unfold load_all_todos sortById
  rw [List.length_map, sortBy_length]

/-- The membership reading of one `optMemStr` test. -/
theorem optMemStr_iff (o : Option String) (sel : List String) :
    optMemStr o sel = true ↔ ∃ a, o = some a ∧ a ∈ sel := by
  cases o with
  | none => simp [optMemStr]
  | some a =>
    simp only [optMemStr, Option.some.injEq]
    constructor
    · intro h
      exact ⟨a, rfl, List.elem_iff.mp h⟩
    · rintro ⟨b, rfl, hb⟩
      exact List.elem_iff.mpr hb

/-! Reduction lemmas putting each callback's successful outcome in closed
form. -/

theorem create_todo_callback_ok (today : Date) (s : AppState) (f : NewTodoForm)
    (ht : ¬ f.title = "") :
    create_todo_callback today s f = CbResult.ok { s with
      db := { s.db with
        todos := s.db.todos ++
          [{ id := s.db.nextTodoId, title := f.title,
             description := some f.description, requester := some f.requester,
             label := some f.label, priority := some f.priority,
             status := some f.status, created_at := some today,
             due_at := some f.due_date, done := false }],
        nextTodoId := s.db.nextTodoId + 1 },
      todos_data := load_all_todos { s.db with
        todos := s.db.todos ++
          [{ id := s.db.nextTodoId, title := f.title,
             description := some f.description, requester := some f.requester,
             label := some f.label, priority := some f.priority,
             status := some f.status, created_at := some today,
             due_at := some f.due_date, done := false }],
        nextTodoId := s.db.nextTodoId + 1 },
      writes := s.writes + 1 } := by
  unfold create_todo_callback
  rw [if_neg ht]

theorem update_todo_callback_ok (s : AppState) (i : Nat)
    (title description status requester : String) (due : Date)
    (htt : ¬ title = "") :
    update_todo_callback s i
        { title? := some title, description? := some description,
          status? := some status, requester? := some requester,
          due_date? := some due }
      = CbResult.ok { s with
          db := { s.db with
            todos := s.db.todos.map (fun r =>
              if r.id == i then
                { r with
                  title := title, description := some description,
                  status := some status, requester := some requester,
                  due_at := some due }
              else r) },
          todos_data := dictSet s.todos_data i
            (load_todo { s.db with
              todos := s.db.todos.map (fun r =>
                if r.id == i then
                  { r with
                    title := title, description := some description,
                    status := some status, requester := some requester,
                    due_at := some due }
                else r) } i),
          editing := dictSet s.editing i false,
          writes := s.writes + 1 } := by
  simp only [update_todo_callback]
  rw [if_neg htt]

theorem mark_done_callback_ok (s : AppState) (i : Nat) (t : Todo)
    (hc : dictGet s.todos_data i = some (some t)) :
    mark_done_callback s i = CbResult.ok { s with
      db := { s.db with
        todos := s.db.todos.map (fun r =>
          if r.id == i then { r with done := !t.done } else r) },
      todos_data := dictSet s.todos_data i
        (load_todo { s.db with
          todos := s.db.todos.map (fun r =>
            if r.id == i then { r with done := !t.done } else r) } i),
      writes := s.writes + 1 } := by
  unfold mark_done_callback
  rw [hc]

/-!  The claims. -/

/-- C3 (code bug): the claim says a submitted edit form writes title,
description, status, requester and due date through `updateTask`, but the
edit widget creates only the title, description and due-date form keys, so
`update_todo_callback` raises `KeyError` reading
`edit_todo_form_{id}__status` before executing any statement: submitting
the edit form for the stored task errors out with the store, cache and
write counter untouched. -/
theorem C3_edit_submission_raises_before_write :
    update_todo_callback sampleState 1
        (todo_edit_widget_form "Write report v2" "new numbers" 738800)
      = CbResult.err sampleState := rfl

/-- C4: a create or update submission with an empty title aborts before any
write: the create callback returns with the state untouched, and the update
callback (whatever the rest of the form state) leaves the store, the cache
and the statement count exactly as they were. -/
theorem C4_empty_title_aborts_without_write
    (today : Date) (s : AppState) (f : NewTodoForm) (fe : EditForm) (i : Nat)
    (h1 : f.title = "") (h2 : fe.title? = some "") :
    create_todo_callback today s f = CbResult.ok s ∧
    (update_todo_callback s i fe).state.db = s.db ∧
    (update_todo_callback s i fe).state.todos_data = s.todos_data ∧
    (update_todo_callback s i fe).state.writes = s.writes := by
  refine ⟨?_, ?_⟩
  · unfold create_todo_callback
    rw [if_pos h1]
  · rcases fe with ⟨ft, fd, fst, fr, fdu⟩
    have h2' : ft = some "" := h2
    subst h2'
    cases fd <;> cases fst <;> cases fr <;> cases fdu <;>
      simp [update_todo_callback, CbResult.state]

/-- C4 witness: the abort at a concrete state and concrete empty-title
forms. -/
theorem C4_witness :
    create_todo_callback 738690 sampleState emptyTitleNewForm = CbResult.ok sampleState ∧
    (update_todo_callback sampleState 1 emptyTitleEditForm).state.db = sampleState.db ∧
    (update_todo_callback sampleState 1 emptyTitleEditForm).state.todos_data
      = sampleState.todos_data ∧
    (update_todo_callback sampleState 1 emptyTitleEditForm).state.writes
      = sampleState.writes :=
  C4_empty_title_aborts_without_write 738690 sampleState emptyTitleNewForm
    emptyTitleEditForm 1 rfl rfl

/-- C7: for tasks whose label, priority and status are drawn from the
allowed enumerations, the filtered list contains exactly the tasks whose
three fields are members of the respective selected sets and which are not
done when the hide-done flag is set. -/
theorem C7_filter_membership_exact (todos : List Todo) (fs : FilterState)
    (henum : ∀ t ∈ todos,
      (∃ a ∈ (["work", "school", "personal", "others"] : List String), t.label = some a) ∧
      (∃ a ∈ (["low", "medium", "high"] : List String), t.priority = some a) ∧
      (∃ a ∈ (["to-do", "in progress", "completed", "blocked"] : List String),
        t.status = some a)) :
    ∀ t, t ∈ apply_filters todos fs ↔
      (t ∈ todos ∧
       (∃ a, t.label = some a ∧ a ∈ fs.filter_label) ∧
       (∃ a, t.priority = some a ∧ a ∈ fs.filter_priority) ∧
       (∃ a, t.status = some a ∧ a ∈ fs.filter_status) ∧
       (fs.hide_done = true → t.done = false)) := by
  intro t
  unfold apply_filters
  rw [List.mem_filter]
  simp only [Bool.and_eq_true]
  constructor
  · rintro ⟨hmem, ⟨⟨hl, hp⟩, hst⟩, hd⟩
    refine ⟨hmem, (optMemStr_iff _ _).mp hl, (optMemStr_iff _ _).mp hp,
      (optMemStr_iff _ _).mp hst, ?_⟩
    intro hhd
    rw [hhd] at hd
    simpa using hd
  · rintro ⟨hmem, hl, hp, hst, hd⟩
    refine ⟨hmem, ⟨⟨(optMemStr_iff _ _).mpr hl, (optMemStr_iff _ _).mpr hp⟩,
      (optMemStr_iff _ _).mpr hst⟩, ?_⟩
    cases hhd : fs.hide_done with
    | false => simp
    | true => simp [hd hhd]

/-- C7 witness: the characterisation applied to a concrete task and the
default (all options selected) filter state. -/
theorem C7_witness :
    Todo.from_row sampleRow ∈ apply_filters [Todo.from_row sampleRow] {} ↔
      (Todo.from_row sampleRow ∈ [Todo.from_row sampleRow] ∧
       (∃ a, (Todo.from_row sampleRow).label = some a ∧
         a ∈ FilterState.filter_label {}) ∧
       (∃ a, (Todo.from_row sampleRow).priority = some a ∧
         a ∈ FilterState.filter_priority {}) ∧
       (∃ a, (Todo.from_row sampleRow).status = some a ∧
         a ∈ FilterState.filter_status {}) ∧
       (FilterState.hide_done {} = true → (Todo.from_row sampleRow).done = false)) :=
  C7_filter_membership_exact [Todo.from_row sampleRow] {} (by decide)
    (Todo.from_row sampleRow)

/-- C9: a task whose label, priority or status is absent (`None`) is
excluded by the filter whatever the selections are, because the membership
test `None in selected` is `False`. -/
theorem C9_absent_field_always_filtered_out
    (todos : List Todo) (fs : FilterState) (t : Todo)
    (h : t.label = none ∨ t.priority = none ∨ t.status = none) :
    t ∉ apply_filters todos fs := by
  intro hmem
  unfold apply_filters at hmem
  rcases List.mem_filter.mp hmem with ⟨-, hp⟩
  rcases h with h | h | h <;> simp [optMemStr, h] at hp

/-- C9 witness: a concrete label-less task is excluded even with every
filter option selected. -/
theorem C9_witness :
    todoNoLabel.label = none ∧ todoNoLabel ∉ apply_filters [todoNoLabel] {} :=
  ⟨rfl, C9_absent_field_always_filtered_out [todoNoLabel] {} todoNoLabel (Or.inl rfl)⟩

/-- C10: rendering the card of a task with no due date fails: both the
due-date caption and the calendar-link generator call `strftime` on the
missing date without a guard, so the display step is undefined there even
though the data model declares the due date optional. -/
theorem C10_card_render_fails_without_due_date (t : Todo) (h : t.due_at = none) :
    todo_card_view t = none ∧
    generate_gcal_link t.title t.description t.due_at = none := by
  constructor
  · unfold todo_card_view
    rw [h]
  · unfold generate_gcal_link
    rw [h]

/-- C10 witness: the failure at a concrete task with no due date. -/
theorem C10_witness :
    todoNoDue.due_at = none ∧
    (todo_card_view todoNoDue = none ∧
     generate_gcal_link todoNoDue.title todoNoDue.description todoNoDue.due_at = none) :=
  ⟨rfl, C10_card_render_fails_without_due_date todoNoDue rfl⟩

/-- C1: whenever a mutation callback completes having executed its write,
the cache it leaves behind is re-read from the store: create and delete
replace the whole cache with `load_all_todos` of the post-write store, and
update and done-toggle set the affected entry to `load_todo` of the
post-write store — never to a value assembled from the mutation's inputs. -/
theorem C1_cache_refreshed_from_store (today : Date) (s : AppState)
    (f : NewTodoForm) (fe : EditForm) (i2 i3 i4 : Nat)
    (s1 s2 s3 s4 : AppState)
    (ht1 : f.title ≠ "")
    (h1 : create_todo_callback today s f = CbResult.ok s1)
    (h2 : delete_todo_callback s i2 = CbResult.ok s2)
    (ht3 : fe.title? ≠ some "")
    (h3 : update_todo_callback s i3 fe = CbResult.ok s3)
    (h4 : mark_done_callback s i4 = CbResult.ok s4) :
    s1.todos_data = load_all_todos s1.db ∧
    s2.todos_data = load_all_todos s2.db ∧
    dictGet s3.todos_data i3 = some (load_todo s3.db i3) ∧
    dictGet s4.todos_data i4 = some (load_todo s4.db i4) := by
  refine ⟨?_, ?_, ?_, ?_⟩
  · unfold create_todo_callback at h1
    rw [if_neg ht1] at h1
    injection h1 with h1
    subst h1
    rfl
  · unfold delete_todo_callback at h2
    injection h2 with h2
    subst h2
    rfl
  · rcases fe with ⟨ft, fd, fst, fr, fdu⟩
    cases ft with
    | none => exact absurd h3 (by simp [update_todo_callback])
    | some t =>
      cases fd with
      | none => exact absurd h3 (by simp [update_todo_callback])
      | some d =>
        cases fst with
        | none => exact absurd h3 (by simp [update_todo_callback])
        | some st =>
          cases fr with
          | none => exact absurd h3 (by simp [update_todo_callback])
          | some rq =>
            cases fdu with
            | none => exact absurd h3 (by simp [update_todo_callback])
            | some du =>
              by_cases htt : t = ""
              · exact absurd (by rw [htt]) ht3
              · rw [update_todo_callback_ok s i3 t d st rq du htt] at h3
                injection h3 with h3
                subst h3
                exact dictGet_dictSet_self _ _ _
  · cases hdg : dictGet s.todos_data i4 with
    | none =>
      unfold mark_done_callback at h4
      rw [hdg] at h4
      exact absurd h4 (by simp)
    | some o =>
      cases o with
      | none =>
        unfold mark_done_callback at h4
        rw [hdg] at h4
        exact absurd h4 (by simp)
      | some todo =>
        rw [mark_done_callback_ok s i4 todo hdg] at h4
        injection h4 with h4
        subst h4
        exact dictGet_dictSet_self _ _ _

/-- C1 witness: all four callbacks run at a concrete state and their
resulting caches coincide with the store re-reads. -/
theorem C1_witness :
    (create_todo_callback 738690 sampleState sampleNewForm).state.todos_data
      = load_all_todos (create_todo_callback 738690 sampleState sampleNewForm).state.db ∧
    (delete_todo_callback sampleState 1).state.todos_data
      = load_all_todos (delete_todo_callback sampleState 1).state.db ∧
    dictGet (update_todo_callback sampleState 1 sampleEditForm).state.todos_data 1
      = some (load_todo (update_todo_callback sampleState 1 sampleEditForm).state.db 1) ∧
    dictGet (mark_done_callback sampleState 1).state.todos_data 1
      = some (load_todo (mark_done_callback sampleState 1).state.db 1) :=
  C1_cache_refreshed_from_store 738690 sampleState sampleNewForm sampleEditForm
    1 1 1 _ _ _ _ (by decide) rfl rfl (by decide) rfl rfl

/-- C6: one done-toggle on a cached task writes the negation of the done
value currently in the cache to every matching store row, with exactly one
statement; toggling again restores the original done value, for exactly two
statements in total. -/
theorem C6_toggle_done_twice_roundtrip (s : AppState) (i : Nat) (t : Todo)
    (hc : dictGet s.todos_data i = some (some t))
    (hrow : (s.db.todos.find? (fun r => r.id == i)).isSome = true) :
    ∃ s1, mark_done_callback s i = CbResult.ok s1 ∧
      (∀ r ∈ s1.db.todos, r.id = i → r.done = !t.done) ∧
      s1.writes = s.writes + 1 ∧
      (∃ t1, dictGet s1.todos_data i = some (some t1) ∧ t1.done = !t.done) ∧
      ∃ s2, mark_done_callback s1 i = CbResult.ok s2 ∧
        (∀ r ∈ s2.db.todos, r.id = i → r.done = t.done) ∧
        (∃ t2, dictGet s2.todos_data i = some (some t2) ∧ t2.done = t.done) ∧
        s2.writes = s.writes + 2 := by
  rcases Option.isSome_iff_exists.mp hrow with ⟨r0, hr0⟩
  have hpr0 : (r0.id == i) = true := by simpa using List.find?_some hr0
  have hid : r0.id = i := by simpa using hpr0
  have hload1 : load_todo { s.db with
      todos := s.db.todos.map (fun r =>
        if r.id == i then { r with done := !t.done } else r) } i
      = some (Todo.from_row { r0 with done := !t.done }) := by
    show ((s.db.todos.map (fun r =>
        if r.id == i then { r with done := !t.done } else r)).find?
        (fun r => r.id == i)).map Todo.from_row
      = some (Todo.from_row { r0 with done := !t.done })
    rw [find?_map_update s.db.todos i (fun r => { r with done := !t.done })
      (fun _ => rfl), hr0]
    simp [hid]
  refine ⟨_, mark_done_callback_ok s i t hc, ?_, rfl, ?_, ?_⟩
  · intro r hr hri
    rcases List.mem_map.mp hr with ⟨r', hr', rfl⟩
    by_cases h' : (r'.id == i) = true
    · simp [h']
    · rw [if_neg h'] at hri ⊢
      exact absurd (by simpa using hri) h'
  · exact ⟨Todo.from_row { r0 with done := !t.done },
      by rw [dictGet_dictSet_self, hload1], rfl⟩
  · have hc1 : dictGet (dictSet s.todos_data i
        (load_todo { s.db with
          todos := s.db.todos.map (fun r =>
            if r.id == i then { r with done := !t.done } else r) } i)) i
        = some (some (Todo.from_row { r0 with done := !t.done })) := by
      rw [dictGet_dictSet_self, hload1]
    have hstep2 := mark_done_callback_ok { s with
        db := { s.db with
          todos := s.db.todos.map (fun r =>
            if r.id == i then { r with done := !t.done } else r) },
        todos_data := dictSet s.todos_data i
          (load_todo { s.db with
            todos := s.db.todos.map (fun r =>
              if r.id == i then { r with done := !t.done } else r) } i),
        writes := s.writes + 1 } i
      (Todo.from_row { r0 with done := !t.done }) hc1
    refine ⟨_, hstep2, ?_, ?_, rfl⟩
    · intro r hr hri
      rcases List.mem_map.mp hr with ⟨r', hr', rfl⟩
      by_cases h' : (r'.id == i) = true
      · simp [h', Todo.from_row, Bool.not_not]
      · rw [if_neg h'] at hri ⊢
        exact absurd (by simpa using hri) h'
    · refine ⟨Todo.from_row { r0 with done := t.done }, ?_, rfl⟩
      rw [dictGet_dictSet_self]
      dsimp only
      simp only [load_todo]
      rw [find?_map_update _ i
        (fun r => { r with
          done := !(Todo.from_row { r0 with done := !t.done }).done })
        (fun _ => rfl)]
      rw [find?_map_update s.db.todos i (fun r => { r with done := !t.done })
        (fun _ => rfl), hr0]
      simp [hid, Todo.from_row, Bool.not_not]

/-- Removing the unique row with id `i` shortens the table by exactly one. -/
theorem length_filter_out_unique (l : List TodoRow) (i : Nat)
    (hnd : l.Pairwise (fun a b => a.id < b.id)) (hm : ∃ r ∈ l, r.id = i) :
    (l.filter (fun r => !(r.id == i))).length + 1 = l.length := by
  induction l with
  | nil =>
    rcases hm with ⟨r, hr, _⟩
    cases hr
  | cons a l ih =>
    rcases List.pairwise_cons.mp hnd with ⟨ha, hl⟩
    by_cases hai : (a.id == i) = true
    · have hae : a.id = i := by simpa using hai
      have hnone : ∀ r ∈ l, (!(r.id == i)) = true := by
        intro r hr
        have hlt : a.id < r.id := ha r hr
        rw [hae] at hlt
        simp [Nat.ne_of_gt hlt]
      have hfl : l.filter (fun r => !(r.id == i)) = l :=
        List.filter_eq_self.mpr hnone
      simp [List.filter_cons, hai, hfl]
    · have hm' : ∃ r ∈ l, r.id = i := by
        rcases hm with ⟨r, hr, hri⟩
        rcases List.mem_cons.mp hr with rfl | hr'
        · exact absurd (by simp [hri]) hai
        · exact ⟨r, hr', hri⟩
      have hrec := ih hl hm'
      simp only [List.filter_cons, hai]
      simp only [Bool.not_false, if_pos]
      simpa [Nat.succ_eq_add_one] using congrArg Nat.succ hrec

/-- C2: a create submission with a non-empty title inserts exactly one row
(one statement executed), the cache grows by exactly one entry, and the new
cache entry — keyed by the store-assigned identifier — carries exactly the
submitted title, description, requester, label, priority, status and due
date, with `done = false` and the current date as creation date. -/
theorem C2_create_inserts_exactly_submitted (today : Date) (s : AppState)
    (f : NewTodoForm) (ht : ¬ f.title = "") (hwf : WF s.db)
    (hcons : s.todos_data = load_all_todos s.db) :
    ∃ s', create_todo_callback today s f = CbResult.ok s' ∧
      s'.db.todos.length = s.db.todos.length + 1 ∧
      s'.todos_data.length = s.todos_data.length + 1 ∧
      s'.writes = s.writes + 1 ∧
      ∃ t : Todo, dictGet s'.todos_data s.db.nextTodoId = some (some t) ∧
        t.title = f.title ∧ t.description = some f.description ∧
        t.requester = some f.requester ∧ t.label = some f.label ∧
        t.priority = some f.priority ∧ t.status = some f.status ∧
        t.due_at = some f.due_date ∧ t.done = false ∧
        t.created_at = some today := by
  refine ⟨_, create_todo_callback_ok today s f ht, ?_, ?_, rfl, ?_⟩
  · dsimp only
    simp
  · dsimp only
    rw [load_all_todos_length, hcons, load_all_todos_length]
    simp
  · refine ⟨Todo.from_row
      { id := s.db.nextTodoId, title := f.title,
        description := some f.description, requester := some f.requester,
        label := some f.label, priority := some f.priority,
        status := some f.status, created_at := some today,
        due_at := some f.due_date, done := false },
      ?_, rfl, rfl, rfl, rfl, rfl, rfl, rfl, rfl, rfl⟩
    dsimp only
    have hpair : (s.db.todos ++
        [({ id := s.db.nextTodoId, title := f.title,
            description := some f.description, requester := some f.requester,
            label := some f.label, priority := some f.priority,
            status := some f.status, created_at := some today,
            due_at := some f.due_date, done := false } : TodoRow)]).Pairwise
          (fun a b => a.id < b.id) := by
      rw [List.pairwise_append]
      refine ⟨hwf.1, List.pairwise_singleton _ _, ?_⟩
      intro a ha b hb
      rw [List.mem_singleton] at hb
      subst hb
      exact hwf.2 a ha
    rw [dictGet_load_all
      { todos := s.db.todos ++
          [{ id := s.db.nextTodoId, title := f.title,
             description := some f.description, requester := some f.requester,
             label := some f.label, priority := some f.priority,
             status := some f.status, created_at := some today,
             due_at := some f.due_date, done := false }],
        subtasks := s.db.subtasks,
        nextTodoId := s.db.nextTodoId + 1 } hpair]
    rw [List.find?_append]
    rw [List.find?_eq_none.mpr (fun r hr => by
      simpa using Nat.ne_of_lt (hwf.2 r hr))]
    rw [List.find?_cons_of_pos _ (by simp)]
    rfl

/-- C2 witness: the creation at a concrete state and form. -/
theorem C2_witness :
    ∃ s', create_todo_callback 738690 sampleState sampleNewForm = CbResult.ok s' ∧
      s'.db.todos.length = sampleState.db.todos.length + 1 ∧
      s'.todos_data.length = sampleState.todos_data.length + 1 ∧
      s'.writes = sampleState.writes + 1 ∧
      ∃ t : Todo, dictGet s'.todos_data sampleState.db.nextTodoId = some (some t) ∧
        t.title = sampleNewForm.title ∧
        t.description = some sampleNewForm.description ∧
        t.requester = some sampleNewForm.requester ∧
        t.label = some sampleNewForm.label ∧
        t.priority = some sampleNewForm.priority ∧
        t.status = some sampleNewForm.status ∧
        t.due_at = some sampleNewForm.due_date ∧ t.done = false ∧
        t.created_at = some 738690 :=
  C2_create_inserts_exactly_submitted 738690 sampleState sampleNewForm
    (by decide) ⟨by decide, by decide⟩ rfl

/-- C5: deleting a stored task removes exactly its row (one statement) and
exactly its cache entry, leaves the Subtask relation untouched, and every
subtask — in particular those owned by the deleted task — is still returned
by `load_subtasks` (the orphans persist). -/
theorem C5_delete_leaves_subtasks_orphaned (s : AppState) (i : Nat)
    (hwf : WF s.db) (hmem : ∃ r ∈ s.db.todos, r.id = i)
    (hcons : s.todos_data = load_all_todos s.db) :
    ∃ s', delete_todo_callback s i = CbResult.ok s' ∧
      (∀ r, r ∈ s'.db.todos ↔ r ∈ s.db.todos ∧ r.id ≠ i) ∧
      s'.db.todos.length + 1 = s.db.todos.length ∧
      s'.db.subtasks = s.db.subtasks ∧
      (∀ tid, load_subtasks s'.db tid = load_subtasks s.db tid) ∧
      dictGet s'.todos_data i = none ∧
      (∀ k, k ≠ i → dictGet s'.todos_data k = dictGet s.todos_data k) ∧
      s'.writes = s.writes + 1 := by
  have hpair' : (s.db.todos.filter (fun r => !(r.id == i))).Pairwise
      (fun a b => a.id < b.id) := hwf.1.sublist (List.filter_sublist _)
  refine ⟨_, rfl, ?_, ?_, rfl, fun _ => rfl, ?_, ?_, rfl⟩
  · intro r
    dsimp only
    rw [List.mem_filter]
    simp
  · dsimp only
    exact length_filter_out_unique s.db.todos i hwf.1 hmem
  · dsimp only
    rw [dictGet_load_all
      { todos := s.db.todos.filter (fun r => !(r.id == i)),
        subtasks := s.db.subtasks, nextTodoId := s.db.nextTodoId } hpair']
    rw [List.find?_eq_none.mpr (fun r hr => by
      simpa using (List.mem_filter.mp hr).2)]
    rfl
  · intro k hk
    dsimp only
    rw [dictGet_load_all
      { todos := s.db.todos.filter (fun r => !(r.id == i)),
        subtasks := s.db.subtasks, nextTodoId := s.db.nextTodoId } hpair']
    rw [hcons, dictGet_load_all s.db hwf.1]
    rw [find?_filter_ne s.db.todos i k hk]

/-- C5 witness: the deletion at a concrete state with one task owning one
subtask. -/
theorem C5_witness :
    ∃ s', delete_todo_callback sampleState 1 = CbResult.ok s' ∧
      (∀ r, r ∈ s'.db.todos ↔ r ∈ sampleState.db.todos ∧ r.id ≠ 1) ∧
      s'.db.todos.length + 1 = sampleState.db.todos.length ∧
      s'.db.subtasks = sampleState.db.subtasks ∧
      (∀ tid, load_subtasks s'.db tid = load_subtasks sampleState.db tid) ∧
      dictGet s'.todos_data 1 = none ∧
      (∀ k, k ≠ 1 → dictGet s'.todos_data k = dictGet sampleState.todos_data k) ∧
      s'.writes = sampleState.writes + 1 :=
  C5_delete_leaves_subtasks_orphaned sampleState 1 ⟨by decide, by decide⟩
    ⟨sampleRow, by decide, by decide⟩ rfl

/-- C6 witness: the double toggle at a concrete state and task. -/
theorem C6_witness :
    ∃ s1, mark_done_callback sampleState 1 = CbResult.ok s1 ∧
      (∀ r ∈ s1.db.todos, r.id = 1 → r.done = !(Todo.from_row sampleRow).done) ∧
      s1.writes = sampleState.writes + 1 ∧
      (∃ t1, dictGet s1.todos_data 1 = some (some t1) ∧
        t1.done = !(Todo.from_row sampleRow).done) ∧
      ∃ s2, mark_done_callback s1 1 = CbResult.ok s2 ∧
        (∀ r ∈ s2.db.todos, r.id = 1 → r.done = (Todo.from_row sampleRow).done) ∧
        (∃ t2, dictGet s2.todos_data 1 = some (some t2) ∧
          t2.done = (Todo.from_row sampleRow).done) ∧
        s2.writes = sampleState.writes + 2 :=
  C6_toggle_done_twice_roundtrip sampleState 1 (Todo.from_row sampleRow) rfl rfl

/-- C8 counterexample: the claim fails when a present due date equals
`date.max`, the sentinel the sort substitutes for missing dates: the keys
tie and the stable sort keeps the original order, so ascending sort leaves
a no-due-date task before a task due on `date.max`, and descending sort
leaves it after one. -/
theorem C8_counterexample :
    ¬ noDueLast (sort_todos SortField.due_at false [todoNoDue, todoDueMax]) ∧
    ¬ noDueFirst (sort_todos SortField.due_at true [todoDueMax, todoNoDue]) := by
  refine ⟨fun h => ?_, fun h => ?_⟩
  · have h01 := h ⟨0, by decide⟩ ⟨1, by decide⟩ rfl (by decide)
    exact absurd h01 (by decide)
  · have h10 := h ⟨1, by decide⟩ ⟨0, by decide⟩ rfl (by decide)
    exact absurd h10 (by decide)

/-- C8 (amended): provided every present due date is strictly earlier than
`date.max` (the sentinel substituted for missing dates), sorting by due
date ascending places every task with no due date after all tasks that have
a due date, and descending places every such task before all of them. -/
theorem C8_missing_dates_sort_to_ends (l : List Todo)
    (hlt : ∀ t ∈ l, t.due_at.getD 0 < dateMax) :
    noDueLast (sort_todos SortField.due_at false l) ∧
    noDueFirst (sort_todos SortField.due_at true l) := by
  have htotA : ∀ a b : Todo,
      decide (a.due_at.getD dateMax ≤ b.due_at.getD dateMax) = true ∨
      decide (b.due_at.getD dateMax ≤ a.due_at.getD dateMax) = true := by
    intro a b
    rcases Nat.le_total (a.due_at.getD dateMax) (b.due_at.getD dateMax) with h | h
    · exact Or.inl (decide_eq_true h)
    · exact Or.inr (decide_eq_true h)
  have htransA : ∀ a b c : Todo,
      decide (a.due_at.getD dateMax ≤ b.due_at.getD dateMax) = true →
      decide (b.due_at.getD dateMax ≤ c.due_at.getD dateMax) = true →
      decide (a.due_at.getD dateMax ≤ c.due_at.getD dateMax) = true := by
    intro a b c hab hbc
    exact decide_eq_true (Nat.le_trans (of_decide_eq_true hab) (of_decide_eq_true hbc))
  have htotD : ∀ a b : Todo,
      decide (b.due_at.getD dateMax ≤ a.due_at.getD dateMax) = true ∨
      decide (a.due_at.getD dateMax ≤ b.due_at.getD dateMax) = true := by
    intro a b
    exact (htotA a b).symm
  have htransD : ∀ a b c : Todo,
      decide (b.due_at.getD dateMax ≤ a.due_at.getD dateMax) = true →
      decide (c.due_at.getD dateMax ≤ b.due_at.getD dateMax) = true →
      decide (c.due_at.getD dateMax ≤ a.due_at.getD dateMax) = true := by
    intro a b c hab hbc
    exact decide_eq_true (Nat.le_trans (of_decide_eq_true hbc) (of_decide_eq_true hab))
  constructor
  · have hout : sort_todos SortField.due_at false l
        = sortBy (fun a b =>
            decide (a.due_at.getD dateMax ≤ b.due_at.getD dateMax)) l := by
      simp [sort_todos, sort_key]
    rw [hout]
    have hpw := sortBy_pairwise (fun a b =>
      decide (a.due_at.getD dateMax ≤ b.due_at.getD dateMax)) htotA htransA l
    rw [List.pairwise_iff_get] at hpw
    intro i j hi hj
    rcases Option.ne_none_iff_exists'.mp hj with ⟨d, hd⟩
    by_contra hc
    have hij : (i : Nat) ≤ (j : Nat) := Nat.le_of_not_lt hc
    have hne : (i : Nat) ≠ (j : Nat) := by
      intro he
      have hfe : i = j := Fin.ext he
      rw [hfe] at hi
      exact hj hi
    have hij' : (i : Nat) < (j : Nat) := lt_of_le_of_ne hij hne
    have hle := of_decide_eq_true (hpw i j hij')
    rw [hi, hd] at hle
    simp only [Option.getD_none, Option.getD_some] at hle
    have hmemj : (sortBy (fun a b =>
        decide (a.due_at.getD dateMax ≤ b.due_at.getD dateMax)) l).get j ∈ l :=
      (mem_sortBy _ l _).mp (List.get_mem _ j.1 j.2)
    have hdlt := hlt _ hmemj
    rw [hd] at hdlt
    simp only [Option.getD_some] at hdlt
    exact absurd hle (Nat.not_le_of_gt hdlt)
  · have hout : sort_todos SortField.due_at true l
        = sortBy (fun a b =>
            decide (b.due_at.getD dateMax ≤ a.due_at.getD dateMax)) l := by
      simp [sort_todos, sort_key]
    rw [hout]
    have hpw := sortBy_pairwise (fun a b =>
      decide (b.due_at.getD dateMax ≤ a.due_at.getD dateMax)) htotD htransD l
    rw [List.pairwise_iff_get] at hpw
    intro i j hi hj
    rcases Option.ne_none_iff_exists'.mp hj with ⟨d, hd⟩
    by_contra hc
    have hij : (j : Nat) ≤ (i : Nat) := Nat.le_of_not_lt hc
    have hne : (j : Nat) ≠ (i : Nat) := by
      intro he
      have hfe : j = i := Fin.ext he
      rw [hfe] at hj
      exact hj hi
    have hij' : (j : Nat) < (i : Nat) := lt_of_le_of_ne hij hne
    have hle := of_decide_eq_true (hpw j i hij')
    rw [hi, hd] at hle
    simp only [Option.getD_none, Option.getD_some] at hle
    have hmemj : (sortBy (fun a b =>
        decide (b.due_at.getD dateMax ≤ a.due_at.getD dateMax)) l).get j ∈ l :=
      (mem_sortBy _ l _).mp (List.get_mem _ j.1 j.2)
    have hdlt := hlt _ hmemj
    rw [hd] at hdlt
    simp only [Option.getD_some] at hdlt
    exact absurd hle (Nat.not_le_of_gt hdlt)

/-- C8 witness: the amended placement on a concrete list holding one task
with an ordinary due date and one with none. -/
theorem C8_witness :
    noDueLast (sort_todos SortField.due_at false [todoNoDue, Todo.from_row sampleRow]) ∧
    noDueFirst (sort_todos SortField.due_at true [todoNoDue, Todo.from_row sampleRow]) :=
  C8_missing_dates_sort_to_ends [todoNoDue, Todo.from_row sampleRow] (by decide)

end TaskTracker
